import Mathlib

/-
Shallow embedding of the aws-athena-mcp server (src/index.ts, src/athena.ts,
src/types.ts).  JavaScript values are modelled explicitly: optional fields
become Option, JS `||` defaulting becomes jsOrStr / jsOrInt (the falsy values
"" and 0 also trigger the default), thrown values become an error channel
(Except), and every `this.client.send(...)` is recorded in an explicit trace
of backend calls so that properties of the form "no backend call is made"
are statable.  Backend responses are supplied as oracles (a response per
call site, or a response per poll iteration), since the remote service is an
external collaborator.
-/

namespace AthenaMCP

/-- Decidable equality for the error channel, so that concrete runs can be
checked by `decide`. -/
instance instDecEqExcept [DecidableEq ε] [DecidableEq α] : DecidableEq (Except ε α) :=
  fun x y =>
    match x, y with
    | .ok a, .ok b =>
      if h : a = b then .isTrue (by rw [h])
      else .isFalse (by intro hh; cases hh; exact h rfl)
    | .error a, .error b =>
      if h : a = b then .isTrue (by rw [h])
      else .isFalse (by intro hh; cases hh; exact h rfl)
    | .ok _, .error _ => .isFalse (by intro hh; cases hh)
    | .error _, .ok _ => .isFalse (by intro hh; cases hh)

/-- The AthenaError shape of types.ts: plain thrown objects carrying a
message, a code, and optionally the query execution id. -/
structure AthenaError where
  message : String
  code : String
  queryExecutionId : Option String
deriving Repr, DecidableEq

/-- Values thrown in the TypeScript code: AthenaError-shaped plain objects
(the only ones with a `code` property), the AWS SDK InvalidRequestException,
and generic Error instances. -/
inductive JsError where
  | athena (e : AthenaError)
  | invalidRequestExc (message : String)
  | generic (message : String)
deriving Repr, DecidableEq

/-- JS `o || d` for an optional string: undefined and the empty string are
falsy and yield the default. -/
def jsOrStr (o : Option String) (d : String) : String :=
  match o with
  | none => d
  | some s => if s = "" then d else s

/-- JS `o || d` for an optional number: undefined and 0 are falsy and yield
the default. -/
def jsOrInt (o : Option Int) (d : Int) : Int :=
  match o with
  | none => d
  | some n => if n = 0 then d else n

/-- QueryExecution.Status of a GetQueryExecution response. -/
structure QStatusInfo where
  state : Option String
  stateChangeReason : Option String
deriving Repr, DecidableEq

/-- QueryExecution.Statistics of a GetQueryExecution response. -/
structure QStats where
  dataScannedInBytes : Option Int
  engineExecutionTimeInMillis : Option Int
deriving Repr, DecidableEq

/-- QueryExecution of a GetQueryExecution response. -/
structure QueryExecutionInfo where
  status : Option QStatusInfo
  statistics : Option QStats
deriving Repr, DecidableEq

/-- GetQueryExecutionCommandOutput: the backend status response. -/
structure GQEOutput where
  queryExecution : Option QueryExecutionInfo
deriving Repr, DecidableEq

/-- One column descriptor of the result metadata. -/
structure ColumnInfoT where
  name : Option String
deriving Repr, DecidableEq

/-- One cell of a result row (Datum); VarCharValue is absent for null. -/
structure DatumT where
  varCharValue : Option String
deriving Repr, DecidableEq

/-- One result row. -/
structure RowT where
  data : Option (List DatumT)
deriving Repr, DecidableEq

/-- ResultSetMetadata of a GetQueryResults response. -/
structure RSMetadata where
  columnInfo : Option (List ColumnInfoT)
deriving Repr, DecidableEq

/-- ResultSet of a GetQueryResults response. -/
structure ResultSetT where
  resultSetMetadata : Option RSMetadata
  rows : Option (List RowT)
deriving Repr, DecidableEq

/-- GetQueryResultsCommandOutput: the backend result-fetch response. -/
structure GQROutput where
  resultSet : Option ResultSetT
deriving Repr, DecidableEq

/-- QueryStatus of types.ts (statistics flattened; athena.ts always
populates the statistics object, lines 103-106). -/
structure QueryStatus where
  state : String
  stateChangeReason : Option String
  dataScannedInBytes : Int
  engineExecutionTimeInMillis : Int
deriving Repr, DecidableEq

/-- QueryInput of types.ts. -/
structure QueryInput where
  database : String
  query : String
  maxRows : Option Int
  timeoutMs : Option Int
deriving Repr, DecidableEq

/-- QueryResult of types.ts.  A row record is the JS object built in
athena.ts lines 165-172: an ordered association list of column name to cell
value (a key assigned the undefined VarCharValue is present with value
none). -/
structure QueryResult where
  columns : List String
  rows : List (List (String × Option String))
  queryExecutionId : String
  bytesScanned : Int
  executionTime : Int
deriving Repr, DecidableEq

/-- One backend round-trip (`this.client.send(...)`). -/
inductive BackendCall where
  | startQueryExecution (query database : String)
  | getQueryExecution (queryExecutionId : String)
  | fetchResults (queryExecutionId : String) (maxResults : Int)
deriving Repr, DecidableEq

/-- The QUERY_NOT_FOUND error object thrown at athena.ts lines 94-97 and
110-113. -/
def notFoundError : JsError :=
  .athena ⟨"Query execution not found", "QUERY_NOT_FOUND", none⟩

/-- The catch blocks of getQueryStatus / getQueryResults (athena.ts lines
108-116 and 182-190): an InvalidRequestException is converted to
QUERY_NOT_FOUND, everything else is rethrown unchanged. -/
def catchInvalidRequest (r : Except JsError α) : Except JsError α :=
  match r with
  | .error (.invalidRequestExc _) => .error notFoundError
  | x => x

/-- AthenaService.getQueryStatus (athena.ts lines 85-117), as a function of
the backend's GetQueryExecution response (or thrown error). -/
def getQueryStatus (resp : Except JsError GQEOutput) : Except JsError QueryStatus :=
  catchInvalidRequest <|
    match resp with
    | .error e => .error e
    | .ok r =>
      match r.queryExecution with
      | none => .error notFoundError
      | some qe =>
        .ok
          { state := jsOrStr (qe.status.bind QStatusInfo.state) "UNKNOWN"
            stateChangeReason := qe.status.bind QStatusInfo.stateChangeReason
            dataScannedInBytes := jsOrInt (qe.statistics.bind QStats.dataScannedInBytes) 0
            engineExecutionTimeInMillis :=
              jsOrInt (qe.statistics.bind QStats.engineExecutionTimeInMillis) 0 }

/-- A status response reporting the given state, with an optional reason and
no statistics. -/
def gqeWith (s : String) (r : Option String) : GQEOutput :=
  ⟨some ⟨some ⟨some s, r⟩, none⟩⟩

/-- The JS object assignment `obj[k] = v` (athena.ts line 169): an existing
key keeps its position and gets the new value, a new key is appended. -/
def objInsert (obj : List (String × Option String)) (k : String) (v : Option String) :
    List (String × Option String) :=
  if obj.any (fun p => p.1 = k) then
    obj.map (fun p => if p.1 = k then (k, v) else p)
  else obj ++ [(k, v)]

/-- The `row.Data?.forEach((data, index) => ...)` body of athena.ts lines
167-171, walking the cells with their index: a cell whose column name is
missing (index beyond the columns list) or the empty string is skipped
(`if (columns[index])` — the empty string is falsy), otherwise the name is
assigned the cell's VarCharValue. -/
def buildRecordAux (columns : List String) :
    List DatumT → Nat → List (String × Option String) → List (String × Option String)
  | [], _, obj => obj
  | d :: ds, i, obj =>
    buildRecordAux columns ds (i + 1)
      (match columns.get? i with
       | some c => if c = "" then obj else objInsert obj c d.varCharValue
       | none => obj)

/-- One output record per row (athena.ts lines 165-173); a missing Data
array behaves as an empty one. -/
def buildRecord (columns : List String) (row : RowT) : List (String × Option String) :=
  buildRecordAux columns (row.data.getD []) 0 []

/-- Column-name extraction (athena.ts lines 159-161):
`ColumnInfo?.map((col) => col.Name || "")`. -/
def colNames (infos : List ColumnInfoT) : List String :=
  infos.map (fun c => jsOrStr c.name "")

/-- Row decoding (athena.ts lines 163-173): drop the header row
(`.slice(1)`), then build one record per remaining row. -/
def decodeRows (columns : List String) (rows : List RowT) :
    List (List (String × Option String)) :=
  (rows.drop 1).map (buildRecord columns)

/-- AthenaService.getQueryResults (athena.ts lines 119-191), as a function
of the two backend responses it may consume: the GetQueryExecution response
behind the internal getQueryStatus call, and the GetQueryResults response.
The second component is the trace of backend calls actually issued. -/
def getQueryResults (statusResp : Except JsError GQEOutput)
    (fetchResp : Except JsError GQROutput) (queryExecutionId : String)
    (maxRows : Option Int) : Except JsError QueryResult × List BackendCall :=
  let statusTrace := [BackendCall.getQueryExecution queryExecutionId]
  match getQueryStatus statusResp with
  | .error e => (catchInvalidRequest (.error e), statusTrace)
  | .ok status =>
    if status.state = "RUNNING" ∨ status.state = "QUEUED" then
      (.error (.athena ⟨"Query is still running", "QUERY_STILL_RUNNING",
        some queryExecutionId⟩), statusTrace)
    else if status.state = "FAILED" then
      (.error (.athena ⟨jsOrStr status.stateChangeReason "Query failed", "QUERY_FAILED",
        some queryExecutionId⟩), statusTrace)
    else if status.state ≠ "SUCCEEDED" then
      (.error (.athena ⟨"Unexpected query state: " ++ status.state, "UNEXPECTED_STATE",
        some queryExecutionId⟩), statusTrace)
    else
      let trace := statusTrace ++
        [BackendCall.fetchResults queryExecutionId (jsOrInt maxRows 1000)]
      match fetchResp with
      | .error e => (catchInvalidRequest (.error e), trace)
      | .ok out =>
        match out.resultSet with
        | none => (.error (.generic "No results returned from query"), trace)
        | some rs =>
          let columns := ((rs.resultSetMetadata.bind RSMetadata.columnInfo).map colNames).getD []
          (.ok
            { columns := columns
              rows := decodeRows columns (rs.rows.getD [])
              queryExecutionId := queryExecutionId
              bytesScanned := jsOrInt (some status.dataScannedInBytes) 0
              executionTime := jsOrInt (some status.engineExecutionTimeInMillis) 0 }, trace)

/-- The TIMEOUT error object thrown at athena.ts lines 203-207 and 237-241
(both sites build the identical object). -/
def timeoutError (queryExecutionId : String) : AthenaError :=
  ⟨"Query timed out", "TIMEOUT", some queryExecutionId⟩

/-- The loop guard `timeoutMs && Date.now() - startTime >= timeoutMs`
(athena.ts line 202): an absent or zero timeoutMs is falsy and disables the
check. -/
def tmCheck (timeoutMs : Option Int) (elapsed : Int) : Bool :=
  match timeoutMs with
  | none => false
  | some t => if t = 0 then false else decide (t ≤ elapsed)

/-- The state a poll response reports, if the response is not a thrown
error: `response.QueryExecution?.Status?.State`. -/
def respState (resp : Except JsError GQEOutput) : Option (Option String) :=
  match resp with
  | .error _ => none
  | .ok r => some (r.queryExecution.bind (fun qe => qe.status.bind QStatusInfo.state))

/-- The reason a poll response reports:
`response.QueryExecution?.Status?.StateChangeReason`. -/
def respReason (resp : Except JsError GQEOutput) : Option String :=
  match resp with
  | .error _ => none
  | .ok r => r.queryExecution.bind (fun qe => qe.status.bind QStatusInfo.stateChangeReason)

/-- Whether an observed state is terminal for the poll loop (athena.ts
lines 217-224): SUCCEEDED, FAILED or CANCELLED. -/
def isTerminalState (st : Option String) : Bool :=
  st = some "SUCCEEDED" || st = some "FAILED" || st = some "CANCELLED"

/-- A poll response that the loop treats as non-terminal: a successful
response whose state is none of SUCCEEDED, FAILED, CANCELLED. -/
def nonTerminalResp (resp : Except JsError GQEOutput) : Bool :=
  match respState resp with
  | none => false
  | some st => !(isTerminalState st)

/-- The fixed inter-poll sleep of athena.ts line 233
(`setTimeout(resolve, 1000)`). -/
def pollIntervalMs : Int := 1000

/-- AthenaService.waitForQueryCompletion (athena.ts lines 193-242).  The
backend is an oracle: `poll i` is the GetQueryExecution response of the
i-th status request and `elapsed i` is `Date.now() - startTime` at the top
of iteration i.  The first argument of the recursion is the remaining
attempt budget (`maxAttempts - attempts`), the second the iteration index.
On success the index of the succeeding response is returned (the code
returns that response).  The second component lists the iteration indices
at which a status request was actually issued. -/
def waitLoop (poll : Nat → Except JsError GQEOutput) (elapsed : Nat → Int)
    (timeoutMs : Option Int) (queryExecutionId : String) :
    Nat → Nat → Except JsError Nat × List Nat
  | 0, _ => (.error (.athena (timeoutError queryExecutionId)), [])
  | fuel + 1, i =>
    if tmCheck timeoutMs (elapsed i) then
      (.error (.athena (timeoutError queryExecutionId)), [])
    else
      match poll i with
      | .error e => (.error e, [i])
      | .ok r =>
        let st := r.queryExecution.bind (fun qe => qe.status.bind QStatusInfo.state)
        if st = some "SUCCEEDED" then (.ok i, [i])
        else if st = some "FAILED" ∨ st = some "CANCELLED" then
          (.error (.athena
            ⟨jsOrStr (r.queryExecution.bind (fun qe => qe.status.bind
                QStatusInfo.stateChangeReason)) "Query failed",
              "QUERY_FAILED", some queryExecutionId⟩), [i])
        else
          let rest := waitLoop poll elapsed timeoutMs queryExecutionId fuel (i + 1)
          (rest.1, i :: rest.2)

/-- The maxAttempts value: the default of the signature (athena.ts line
195) and also the value executeQuery passes explicitly (line 58). -/
def defaultMaxAttempts : Nat := 100

/-- executeQuery's composite outcome (athena.ts line 32): a full
QueryResult, or just the execution id on timeout. -/
inductive ExecOutcome where
  | result (r : QueryResult)
  | handle (queryExecutionId : String)
deriving Repr, DecidableEq

/-- The outer catch of executeQuery (athena.ts lines 74-82): an
InvalidRequestException becomes an INVALID_REQUEST error object, everything
else is rethrown. -/
def outerCatch (p : Except JsError ExecOutcome × List BackendCall) :
    Except JsError ExecOutcome × List BackendCall :=
  match p with
  | (.error (.invalidRequestExc m), tr) => (.error (.athena ⟨m, "INVALID_REQUEST", none⟩), tr)
  | x => x

/-- AthenaService.executeQuery (athena.ts lines 32-83): submit once, wait
for completion bounded by `input.timeoutMs || 60000` and 100 attempts, then
fetch results; a TIMEOUT error from the wait is converted into the bare
`{queryExecutionId}` outcome (lines 64-71).  `submit` is the
StartQueryExecution response (the optional QueryExecutionId) or a thrown
error; the poll, status and fetch oracles are as in waitLoop and
getQueryResults. -/
def executeQuery (submit : Except JsError (Option String))
    (poll : Nat → Except JsError GQEOutput) (elapsed : Nat → Int)
    (statusResp : Except JsError GQEOutput) (fetchResp : Except JsError GQROutput)
    (input : QueryInput) : Except JsError ExecOutcome × List BackendCall :=
  let submitTrace := [BackendCall.startQueryExecution input.query input.database]
  outerCatch <|
    match submit with
    | .error e => (.error e, submitTrace)
    | .ok none => (.error (.generic "Failed to start query execution"), submitTrace)
    | .ok (some qid) =>
      let timeoutMs := jsOrInt input.timeoutMs 60000
      let w := waitLoop poll elapsed (some timeoutMs) qid defaultMaxAttempts 0
      let wcalls := w.2.map (fun _ => BackendCall.getQueryExecution qid)
      match w.1 with
      | .ok _ =>
        let r := getQueryResults statusResp fetchResp qid input.maxRows
        ((r.1).map ExecOutcome.result, submitTrace ++ wcalls ++ r.2)
      | .error (.athena ae) =>
        if ae.code = "TIMEOUT" then (.ok (.handle qid), submitTrace ++ wcalls)
        else (.error (.athena ae), submitTrace ++ wcalls)
      | .error e => (.error e, submitTrace ++ wcalls)

/-- A JavaScript argument value as far as the handlers of index.ts inspect
it: a string, a number, or anything else. -/
inductive JsVal where
  | str (s : String)
  | num (n : Int)
  | other
deriving Repr, DecidableEq

/-- The argument object of a tool call (absent properties are none). -/
structure ToolArgs where
  database : Option JsVal
  query : Option JsVal
  maxRows : Option JsVal
  timeoutMs : Option JsVal
  queryExecutionId : Option JsVal
deriving Repr, DecidableEq

/-- What the CallToolRequestSchema handler of index.ts produces for one
tool call: a McpError(InvalidParams) raised by the local validation, an
isError text content built by the catch block (lines 196-207) for thrown
objects with message and code, a rethrown error, or a success content. -/
inductive ToolOutcome (α : Type) where
  | invalidParams (message : String)
  | errorContent (text : String)
  | thrown (e : JsError)
  | success (a : α)
deriving Repr, DecidableEq

/-- The catch block of the tool-call handler (index.ts lines 195-209):
only AthenaError-shaped objects have both message and code and become
isError content; anything else is rethrown. -/
def toOutcome : Except JsError α → ToolOutcome α
  | .ok a => .success a
  | .error (.athena e) => .errorContent ("Error: " ++ e.message)
  | .error e => .thrown e

/-- `typeof v === 'number' ? v : undefined` (index.ts lines 126-129,
151-152). -/
def numArg : Option JsVal → Option Int
  | some (.num n) => some n
  | _ => none

/-- `typeof v === 'string'` as used on database and query (index.ts lines
115-116). -/
def isStrArg : Option JsVal → Bool
  | some (.str _) => true
  | _ => false

/-- The `!args?.queryExecutionId || typeof args.queryExecutionId !==
'string'` check (index.ts lines 143-144, 168-169): only a non-empty string
passes (the empty string is falsy). -/
def truthyStrArg : Option JsVal → Option String
  | some (.str s) => if s = "" then none else some s
  | _ => none

/-- The run_query branch of the tool-call handler (index.ts lines
113-140). -/
def handleRunQuery (submit : Except JsError (Option String))
    (poll : Nat → Except JsError GQEOutput) (elapsed : Nat → Int)
    (statusResp : Except JsError GQEOutput) (fetchResp : Except JsError GQROutput)
    (args : Option ToolArgs) : ToolOutcome ExecOutcome × List BackendCall :=
  match args with
  | none =>
    (.invalidParams "Missing or invalid required parameters: database (string) and query (string)", [])
  | some a =>
    match a.database, a.query with
    | some (.str db), some (.str q) =>
      let input : QueryInput :=
        { database := db, query := q
          maxRows := numArg a.maxRows, timeoutMs := numArg a.timeoutMs }
      let r := executeQuery submit poll elapsed statusResp fetchResp input
      (toOutcome r.1, r.2)
    | _, _ =>
      (.invalidParams "Missing or invalid required parameters: database (string) and query (string)", [])

/-- The get_result branch of the tool-call handler (index.ts lines
142-165). -/
def handleGetResult (statusResp : Except JsError GQEOutput)
    (fetchResp : Except JsError GQROutput) (args : Option ToolArgs) :
    ToolOutcome QueryResult × List BackendCall :=
  match args with
  | none =>
    (.invalidParams "Missing or invalid required parameter: queryExecutionId (string)", [])
  | some a =>
    match truthyStrArg a.queryExecutionId with
    | none =>
      (.invalidParams "Missing or invalid required parameter: queryExecutionId (string)", [])
    | some qid =>
      let r := getQueryResults statusResp fetchResp qid (numArg a.maxRows)
      (toOutcome r.1, r.2)

/-- The get_status branch of the tool-call handler (index.ts lines
167-187). -/
def handleGetStatus (statusResp : Except JsError GQEOutput) (args : Option ToolArgs) :
    ToolOutcome QueryStatus × List BackendCall :=
  match args with
  | none =>
    (.invalidParams "Missing or invalid required parameter: queryExecutionId (string)", [])
  | some a =>
    match truthyStrArg a.queryExecutionId with
    | none =>
      (.invalidParams "Missing or invalid required parameter: queryExecutionId (string)", [])
    | some qid =>
      (toOutcome (getQueryStatus statusResp), [BackendCall.getQueryExecution qid])

/-- A backend status response perpetually reporting RUNNING. -/
def runningGQE : GQEOutput := gqeWith "RUNNING" none

/-- The backend result set of the specification's decoder example: header
row followed by the data rows, with one null cell (a Datum without a
VarCharValue). -/
def exampleFetch : GQROutput :=
  ⟨some ⟨some ⟨some [⟨some "col_a"⟩, ⟨some "col_b"⟩]⟩,
    some [⟨some [⟨some "col_a"⟩, ⟨some "col_b"⟩]⟩,
          ⟨some [⟨some "1"⟩, ⟨some "x"⟩]⟩,
          ⟨some [⟨some "2"⟩, ⟨none⟩]⟩]⟩⟩

/-- A result set whose first column descriptor is unnamed: header row
followed by one data row whose first cell is "x". -/
def unnamedColFetch : GQROutput :=
  ⟨some ⟨some ⟨some [⟨none⟩, ⟨some "b"⟩]⟩,
    some [⟨some [⟨some ""⟩, ⟨some "b"⟩]⟩,
          ⟨some [⟨some "x"⟩, ⟨some "y"⟩]⟩]⟩⟩

/-- The keys present in a record object. -/
def recordKeys (obj : List (String × Option String)) : List String := obj.map Prod.fst

/-- One unfolding of the poll loop when attempt budget remains. -/
theorem waitLoop_succ (poll : Nat → Except JsError GQEOutput) (elapsed : Nat → Int)
    (timeoutMs : Option Int) (qid : String) (fuel i : Nat) :
    waitLoop poll elapsed timeoutMs qid (fuel + 1) i =
      if tmCheck timeoutMs (elapsed i) then
        (.error (.athena (timeoutError qid)), [])
      else
        match poll i with
        | .error e => (.error e, [i])
        | .ok r =>
          let st := r.queryExecution.bind (fun qe => qe.status.bind QStatusInfo.state)
          if st = some "SUCCEEDED" then (.ok i, [i])
          else if st = some "FAILED" ∨ st = some "CANCELLED" then
            (.error (.athena
              ⟨jsOrStr (r.queryExecution.bind (fun qe => qe.status.bind
                  QStatusInfo.stateChangeReason)) "Query failed",
                "QUERY_FAILED", some qid⟩), [i])
          else
            ((waitLoop poll elapsed timeoutMs qid fuel (i + 1)).1,
              i :: (waitLoop poll elapsed timeoutMs qid fuel (i + 1)).2) := rfl

/-- The outer catch of executeQuery never changes the trace of issued
backend calls. -/
theorem outerCatch_snd (p : Except JsError ExecOutcome × List BackendCall) :
    (outerCatch p).2 = p.2 := by
  rcases p with ⟨r, tr⟩
  rcases r with e | a
  · cases e with
    | athena _ => rfl
    | invalidRequestExc _ => rfl
    | generic _ => rfl
  · rfl

/-- Whatever the backend does afterwards, the very first backend call of
executeQuery is the single StartQueryExecution submission. -/
theorem executeQuery_trace_head (submit : Except JsError (Option String))
    (poll : Nat → Except JsError GQEOutput) (elapsed : Nat → Int)
    (statusResp : Except JsError GQEOutput) (fetchResp : Except JsError GQROutput)
    (input : QueryInput) :
    (executeQuery submit poll elapsed statusResp fetchResp input).2.head? =
      some (.startQueryExecution input.query input.database) := by
  unfold executeQuery
  rw [outerCatch_snd]
  rcases submit with e | oqid
  · rfl
  · rcases oqid with _ | qid
    · rfl
    · rcases hw : (waitLoop poll elapsed (some (jsOrInt input.timeoutMs 60000)) qid
        defaultMaxAttempts 0).1 with e | n
      all_goals simp only [hw]
      · rcases e with ae | m | m
        · by_cases hc : ae.code = "TIMEOUT" <;> simp [hc]
        · simp
        · simp
      · simp

/-- C9: a get_status call on a handle the backend reports as unrecognized
or invalid (an InvalidRequestException, or a response without a
QueryExecution) fails with code QUERY_NOT_FOUND — a distinguished error
object, not a generic error — while any other backend rejection is
propagated unchanged. -/
theorem c9_get_status_not_found :
    (∀ m, getQueryStatus (.error (.invalidRequestExc m)) = .error notFoundError)
    ∧ getQueryStatus (.ok ⟨none⟩) = .error notFoundError
    ∧ (∀ e : JsError, (∀ m, e ≠ .invalidRequestExc m) →
        getQueryStatus (.error e) = .error e) := by
  refine ⟨fun m => rfl, rfl, fun e he => ?_⟩
  cases e with
  | athena a => rfl
  | invalidRequestExc m => exact absurd rfl (he m)
  | generic m => rfl

theorem c9_witness :
    getQueryStatus (.error (.invalidRequestExc "bad handle")) = .error notFoundError
    ∧ getQueryStatus (.error (.generic "network down")) = .error (.generic "network down") :=
  ⟨c9_get_status_not_found.1 "bad handle",
   c9_get_status_not_found.2.2 (.generic "network down") (fun _ h => JsError.noConfusion h)⟩

/-- C6: in get_result the freshly re-queried status fully decides the
branch before any data fetch: RUNNING or QUEUED fails QUERY_STILL_RUNNING
carrying the handle without issuing the data-fetch call; FAILED fails
QUERY_FAILED; any other non-SUCCEEDED state fails UNEXPECTED_STATE naming
the observed state and carrying the handle, again with no data fetch; only
SUCCEEDED proceeds to the fetch call. -/
theorem c6_get_result_branches
    (statusResp : Except JsError GQEOutput) (fetchResp : Except JsError GQROutput)
    (qid : String) (maxRows : Option Int) (st : QueryStatus)
    (hst : getQueryStatus statusResp = .ok st) :
    ((st.state = "RUNNING" ∨ st.state = "QUEUED") →
        getQueryResults statusResp fetchResp qid maxRows =
          (.error (.athena ⟨"Query is still running", "QUERY_STILL_RUNNING", some qid⟩),
            [.getQueryExecution qid]))
    ∧ (st.state = "FAILED" →
        getQueryResults statusResp fetchResp qid maxRows =
          (.error (.athena ⟨jsOrStr st.stateChangeReason "Query failed", "QUERY_FAILED",
            some qid⟩), [.getQueryExecution qid]))
    ∧ (st.state ≠ "RUNNING" → st.state ≠ "QUEUED" → st.state ≠ "FAILED" →
        st.state ≠ "SUCCEEDED" →
        getQueryResults statusResp fetchResp qid maxRows =
          (.error (.athena ⟨"Unexpected query state: " ++ st.state, "UNEXPECTED_STATE",
            some qid⟩), [.getQueryExecution qid]))
    ∧ (st.state = "SUCCEEDED" →
        (getQueryResults statusResp fetchResp qid maxRows).2 =
          [.getQueryExecution qid, .fetchResults qid (jsOrInt maxRows 1000)]) := by
  refine ⟨?_, ?_, ?_, ?_⟩
  · intro h
    simp only [getQueryResults, hst, if_pos h]
  · intro h
    simp only [getQueryResults, hst]
    rw [if_neg (by rw [h]; rintro (hc | hc) <;> exact absurd hc (by decide)), if_pos h]
  · intro h1 h2 h3 h4
    simp only [getQueryResults, hst]
    rw [if_neg (by rintro (hc | hc); exacts [h1 hc, h2 hc]), if_neg h3, if_pos h4]
  · intro h
    simp only [getQueryResults, hst]
    rw [if_neg (by rw [h]; rintro (hc | hc) <;> exact absurd hc (by decide)),
      if_neg (by rw [h]; decide), if_neg (by rw [h]; simp)]
    rcases fetchResp with e | out
    · rfl
    · rcases out with ⟨ors⟩
      rcases ors with _ | rs <;> rfl

theorem c6_witness :
    getQueryResults (.ok (gqeWith "RUNNING" none)) (.ok exampleFetch) "q" none =
      (.error (.athena ⟨"Query is still running", "QUERY_STILL_RUNNING", some "q"⟩),
        [.getQueryExecution "q"])
    ∧ getQueryResults (.ok (gqeWith "FAILED" (some "syntax error"))) (.ok exampleFetch) "q" none =
      (.error (.athena ⟨"syntax error", "QUERY_FAILED", some "q"⟩), [.getQueryExecution "q"])
    ∧ getQueryResults (.ok (gqeWith "CANCELLED" none)) (.ok exampleFetch) "q" none =
      (.error (.athena ⟨"Unexpected query state: CANCELLED", "UNEXPECTED_STATE", some "q"⟩),
        [.getQueryExecution "q"])
    ∧ (getQueryResults (.ok (gqeWith "SUCCEEDED" none)) (.ok exampleFetch) "q" none).2 =
      [.getQueryExecution "q", .fetchResults "q" 1000] := by
  refine ⟨?_, ?_, ?_, ?_⟩
  · exact (c6_get_result_branches (.ok (gqeWith "RUNNING" none)) (.ok exampleFetch) "q" none
      ⟨"RUNNING", none, 0, 0⟩ (by decide)).1 (Or.inl rfl)
  · have h := (c6_get_result_branches (.ok (gqeWith "FAILED" (some "syntax error")))
      (.ok exampleFetch) "q" none ⟨"FAILED", some "syntax error", 0, 0⟩ (by decide)).2.1 rfl
    simpa using h
  · exact (c6_get_result_branches (.ok (gqeWith "CANCELLED" none)) (.ok exampleFetch) "q" none
      ⟨"CANCELLED", none, 0, 0⟩ (by decide)).2.2.1 (by decide) (by decide) (by decide) (by decide)
  · have h := (c6_get_result_branches (.ok (gqeWith "SUCCEEDED" none)) (.ok exampleFetch) "q"
      none ⟨"SUCCEEDED", none, 0, 0⟩ (by decide)).2.2.2 rfl
    simpa using h

/-- C10: the wall-clock budget is checked at the top of every poll
iteration, before that iteration's backend status request: every issued
status request happened at an iteration whose top-of-loop check had not yet
expired, and once the budget is exhausted at the top of an iteration the
loop raises TIMEOUT immediately, issuing no further status request. -/
theorem c10_budget_checked_before_request
    (poll : Nat → Except JsError GQEOutput) (elapsed : Nat → Int)
    (timeoutMs : Option Int) (qid : String) :
    (∀ fuel i j, j ∈ (waitLoop poll elapsed timeoutMs qid fuel i).2 →
        tmCheck timeoutMs (elapsed j) = false)
    ∧ (∀ fuel i, tmCheck timeoutMs (elapsed i) = true → 0 < fuel →
        waitLoop poll elapsed timeoutMs qid fuel i =
          (.error (.athena (timeoutError qid)), [])) := by
  constructor
  · intro fuel
    induction fuel with
    | zero => intro i j hj; simp [waitLoop] at hj
    | succ n ih =>
      intro i j hj
      rw [waitLoop_succ] at hj
      by_cases htm : tmCheck timeoutMs (elapsed i)
      · rw [if_pos htm] at hj
        simp at hj
      · rw [if_neg (by simp [htm])] at hj
        rcases hp : poll i with e | r
        · rw [hp] at hj
          simp at hj
          subst hj
          simpa using htm
        · rw [hp] at hj
          dsimp only at hj
          by_cases hs : r.queryExecution.bind (fun qe => qe.status.bind QStatusInfo.state) =
              some "SUCCEEDED"
          · rw [if_pos hs] at hj
            simp at hj
            subst hj
            simpa using htm
          · rw [if_neg hs] at hj
            by_cases hf : r.queryExecution.bind (fun qe => qe.status.bind QStatusInfo.state) =
                some "FAILED" ∨
                r.queryExecution.bind (fun qe => qe.status.bind QStatusInfo.state) =
                some "CANCELLED"
            · rw [if_pos hf] at hj
              simp at hj
              subst hj
              simpa using htm
            · rw [if_neg hf] at hj
              simp only [List.mem_cons] at hj
              rcases hj with hj | hj
              · subst hj
                simpa using htm
              · exact ih (i + 1) j hj
  · intro fuel i htm hfuel
    rcases fuel with _ | n
    · exact absurd hfuel (by simp)
    · rw [waitLoop_succ, if_pos htm]

theorem c10_witness :
    tmCheck (some 1000) 0 = false
    ∧ waitLoop (fun _ => .ok runningGQE) (fun _ => 2000) (some 1000) "q" 5 0 =
      (.error (.athena (timeoutError "q")), []) := by
  constructor
  · exact (c10_budget_checked_before_request (fun _ => .ok runningGQE)
      (fun _ => 0) (some 1000) "q").1 1 0 0 (by decide)
  · exact (c10_budget_checked_before_request (fun _ => .ok runningGQE)
      (fun _ => 2000) (some 1000) "q").2 5 0 (by decide) (by decide)

/-- C5: the poll loop always terminates, bounded by the attempt budget
(100, as executeQuery passes) and the wall-clock budget: whenever no poll
response ever reports a terminal state — whether or not a time budget is
supplied — the loop ends with the TIMEOUT error, and the number of status
requests issued never exceeds the attempt budget. -/
theorem c5_bounded_termination
    (poll : Nat → Except JsError GQEOutput) (elapsed : Nat → Int)
    (timeoutMs : Option Int) (qid : String)
    (h : ∀ j, nonTerminalResp (poll j) = true) :
    defaultMaxAttempts = 100
    ∧ ∀ fuel i,
        (waitLoop poll elapsed timeoutMs qid fuel i).1 = .error (.athena (timeoutError qid))
        ∧ (waitLoop poll elapsed timeoutMs qid fuel i).2.length ≤ fuel := by
  refine ⟨rfl, ?_⟩
  intro fuel
  induction fuel with
  | zero => intro i; exact ⟨rfl, Nat.le_refl 0⟩
  | succ n ih =>
    intro i
    rw [waitLoop_succ]
    by_cases htm : tmCheck timeoutMs (elapsed i)
    · rw [if_pos htm]
      exact ⟨rfl, by simp⟩
    · rw [if_neg (by simp [htm])]
      have hi := h i
      rcases hp : poll i with e | r
      · rw [hp] at hi
        simp [nonTerminalResp, respState] at hi
      · rw [hp] at hi
        simp only [nonTerminalResp, respState, isTerminalState, Bool.not_eq_true',
          Bool.or_eq_false_iff, decide_eq_false_iff_not] at hi
        dsimp only
        rw [if_neg hi.1.1, if_neg (by rintro (hc | hc); exacts [hi.1.2 hc, hi.2 hc])]
        refine ⟨(ih (i + 1)).1, ?_⟩
        simpa using Nat.succ_le_succ (ih (i + 1)).2

theorem c5_witness :
    defaultMaxAttempts = 100
    ∧ (waitLoop (fun _ => .ok runningGQE) (fun _ => 0) none "q" 3 0).1 =
      .error (.athena (timeoutError "q"))
    ∧ (waitLoop (fun _ => .ok runningGQE) (fun _ => 0) none "q" 3 0).2.length ≤ 3 := by
  have h := c5_bounded_termination (fun _ => .ok runningGQE) (fun _ => 0) none "q"
    (fun _ => rfl)
  exact ⟨h.1, (h.2 3 0).1, (h.2 3 0).2⟩

/-- C4: on a poll tick within budget, an observed SUCCEEDED state exits the
loop with success; an observed FAILED or CANCELLED state fails with
QUERY_FAILED carrying the backend's stated reason if present and a generic
message otherwise; any other observed state — QUEUED, RUNNING, a missing or
unrecognized state — is non-terminal and the loop polls again after the
fixed 1000 ms interval, so it never fails solely on an unknown state. -/
theorem c4_poll_tick_behavior
    (poll : Nat → Except JsError GQEOutput) (elapsed : Nat → Int)
    (timeoutMs : Option Int) (qid : String) (fuel i : Nat)
    (htm : tmCheck timeoutMs (elapsed i) = false) :
    (respState (poll i) = some (some "SUCCEEDED") →
        waitLoop poll elapsed timeoutMs qid (fuel + 1) i = (.ok i, [i]))
    ∧ (∀ st, respState (poll i) = some st → st = some "FAILED" ∨ st = some "CANCELLED" →
        waitLoop poll elapsed timeoutMs qid (fuel + 1) i =
          (.error (.athena ⟨jsOrStr (respReason (poll i)) "Query failed", "QUERY_FAILED",
            some qid⟩), [i]))
    ∧ (∀ st, respState (poll i) = some st → isTerminalState st = false →
        waitLoop poll elapsed timeoutMs qid (fuel + 1) i =
          ((waitLoop poll elapsed timeoutMs qid fuel (i + 1)).1,
            i :: (waitLoop poll elapsed timeoutMs qid fuel (i + 1)).2))
    ∧ pollIntervalMs = 1000 := by
  refine ⟨?_, ?_, ?_, rfl⟩
  · intro hs
    rcases hp : poll i with e | r
    · rw [hp] at hs; simp [respState] at hs
    · rw [hp] at hs
      simp only [respState, Option.some.injEq] at hs
      rw [waitLoop_succ, if_neg (by simp [htm]), hp]
      dsimp only
      rw [if_pos hs]
  · intro st hs hfc
    rcases hp : poll i with e | r
    · rw [hp] at hs; simp [respState] at hs
    · rw [hp] at hs
      simp only [respState, Option.some.injEq] at hs
      rw [waitLoop_succ, if_neg (by simp [htm]), hp]
      dsimp only
      subst hs
      rw [if_neg (by rcases hfc with hc | hc <;> rw [hc] <;> decide), if_pos hfc]
      simp [respReason, hp]
  · intro st hs hnt
    rcases hp : poll i with e | r
    · rw [hp] at hs; simp [respState] at hs
    · rw [hp] at hs
      simp only [respState, Option.some.injEq] at hs
      subst hs
      simp only [isTerminalState, Bool.or_eq_false_iff, decide_eq_false_iff_not] at hnt
      rw [waitLoop_succ, if_neg (by simp [htm]), hp]
      dsimp only
      rw [if_neg hnt.1.1, if_neg (by rintro (hc | hc); exacts [hnt.1.2 hc, hnt.2 hc])]

theorem c4_witness :
    waitLoop (fun _ => .ok (gqeWith "SUCCEEDED" none)) (fun _ => 0) none "q" 1 0 = (.ok 0, [0])
    ∧ waitLoop (fun _ => .ok (gqeWith "FAILED" (some "boom"))) (fun _ => 0) none "q" 1 0 =
      (.error (.athena ⟨"boom", "QUERY_FAILED", some "q"⟩), [0])
    ∧ waitLoop (fun _ => .ok runningGQE) (fun _ => 0) none "q" 1 0 =
      ((waitLoop (fun _ => .ok runningGQE) (fun _ => 0) none "q" 0 1).1,
        0 :: (waitLoop (fun _ => .ok runningGQE) (fun _ => 0) none "q" 0 1).2) := by
  refine ⟨?_, ?_, ?_⟩
  · exact (c4_poll_tick_behavior (fun _ => .ok (gqeWith "SUCCEEDED" none)) (fun _ => 0)
      none "q" 0 0 rfl).1 rfl
  · have h := (c4_poll_tick_behavior (fun _ => .ok (gqeWith "FAILED" (some "boom")))
      (fun _ => 0) none "q" 0 0 rfl).2.1 (some "FAILED") rfl (Or.inl rfl)
    simpa using h
  · exact (c4_poll_tick_behavior (fun _ => .ok runningGQE) (fun _ => 0)
      none "q" 0 0 rfl).2.2.1 (some "RUNNING") rfl rfl

/-- C1: whenever the poll budget is exhausted before a terminal state is
observed (the wait phase ends with the TIMEOUT error), run_query returns
exactly the bare handle object carrying the queryExecutionId obtained from
the submit call, and raises no error to the caller. -/
theorem c1_timeout_returns_handle
    (poll : Nat → Except JsError GQEOutput) (elapsed : Nat → Int)
    (statusResp : Except JsError GQEOutput) (fetchResp : Except JsError GQROutput)
    (input : QueryInput) (qid : String)
    (h : (waitLoop poll elapsed (some (jsOrInt input.timeoutMs 60000)) qid
        defaultMaxAttempts 0).1 = .error (.athena (timeoutError qid))) :
    (executeQuery (.ok (some qid)) poll elapsed statusResp fetchResp input).1 =
      .ok (.handle qid) := by
  simp only [executeQuery, h, timeoutError, outerCatch]
  simp

theorem c1_witness :
    (executeQuery (.ok (some "q1")) (fun _ => .ok runningGQE) (fun i => (i : Int) * 1000)
      (.ok runningGQE) (.ok exampleFetch) ⟨"db", "select 1", none, some 1000⟩).1 =
      .ok (.handle "q1") :=
  c1_timeout_returns_handle (fun _ => .ok runningGQE) (fun i => (i : Int) * 1000)
    (.ok runningGQE) (.ok exampleFetch) ⟨"db", "select 1", none, some 1000⟩ "q1" (by decide)

/-- C7: the decoder discards exactly the first row of the backend result
set (the header row) before building records: record k comes from backend
row k+1; on the specification's example the two data rows decode to the two
expected records with the null cell preserved as an absent value, not the
empty string. -/
theorem c7_header_row_discarded :
    (∀ (columns : List String) (rows : List RowT) (k : Nat),
        (decodeRows columns rows).get? k = (rows.get? (k + 1)).map (buildRecord columns))
    ∧ (getQueryResults (.ok (gqeWith "SUCCEEDED" none)) (.ok exampleFetch) "q" none).1 =
      .ok ⟨["col_a", "col_b"],
        [[("col_a", some "1"), ("col_b", some "x")],
         [("col_a", some "2"), ("col_b", none)]], "q", 0, 0⟩ := by
  constructor
  · intro columns rows k
    unfold decodeRows
    rw [List.get?_map, List.get?_drop, Nat.add_comm]
  · decide

/-- C2: refuted — there is no local bounds validation on maxRows.  With
maxRows = 10001 the get_result handler issues both backend calls and
passes MaxResults = 10001 through, and the run_query handler submits the
query to the backend; the claim that the request is rejected before any
backend call is false on this code. -/
theorem c2_no_local_bounds_validation :
    (handleGetResult (.ok (gqeWith "SUCCEEDED" none)) (.ok exampleFetch)
        (some ⟨none, none, some (.num 10001), none, some (.str "q1")⟩)).2 =
      [.getQueryExecution "q1", .fetchResults "q1" 10001]
    ∧ (handleRunQuery (.ok (some "q1")) (fun _ => .ok (gqeWith "SUCCEEDED" none)) (fun _ => 0)
        (.ok (gqeWith "SUCCEEDED" none)) (.ok exampleFetch)
        (some ⟨some (.str "db"), some (.str "select 1"), some (.num 10001), none, none⟩)).2 =
      [.startQueryExecution "select 1" "db", .getQueryExecution "q1",
       .getQueryExecution "q1", .fetchResults "q1" 10001] := by decide

/-- C8 counterexample: a run_query call whose database and query are both
the empty string is not rejected — the submission request is sent to the
backend (first backend call of the trace) and the call runs to a
successful outcome. -/
theorem c8_counterexample :
    (handleRunQuery (.ok (some "q1")) (fun _ => .ok runningGQE) (fun i => (i : Int) * 100000)
        (.ok runningGQE) (.ok exampleFetch)
        (some ⟨some (.str ""), some (.str ""), none, none, none⟩)).1 =
      .success (.handle "q1")
    ∧ (handleRunQuery (.ok (some "q1")) (fun _ => .ok runningGQE) (fun i => (i : Int) * 100000)
        (.ok runningGQE) (.ok exampleFetch)
        (some ⟨some (.str ""), some (.str ""), none, none, none⟩)).2.head? =
      some (.startQueryExecution "" "") := by decide

/-- C8 as amended: the run_query handler requires database and query to be
present strings — a missing argument object, or a database or query that
is absent or not a string, is rejected with InvalidParams before any
backend call — but emptiness is not checked: any string values, including
empty ones, proceed to the submission request. -/
theorem c8_amended_validation (submit : Except JsError (Option String))
    (poll : Nat → Except JsError GQEOutput) (elapsed : Nat → Int)
    (statusResp : Except JsError GQEOutput) (fetchResp : Except JsError GQROutput)
    (a : ToolArgs) :
    (handleRunQuery submit poll elapsed statusResp fetchResp none =
      (.invalidParams "Missing or invalid required parameters: database (string) and query (string)", []))
    ∧ ((isStrArg a.database = false ∨ isStrArg a.query = false) →
        handleRunQuery submit poll elapsed statusResp fetchResp (some a) =
          (.invalidParams "Missing or invalid required parameters: database (string) and query (string)", []))
    ∧ (∀ db q, a.database = some (.str db) → a.query = some (.str q) →
        (handleRunQuery submit poll elapsed statusResp fetchResp (some a)).2.head? =
          some (.startQueryExecution q db)) := by
  refine ⟨rfl, ?_, ?_⟩
  · intro hbad
    rcases a with ⟨db, q, mr, tm, qx⟩
    rcases db with _ | dv
    · rfl
    · rcases q with _ | qv
      · cases dv <;> rfl
      · cases dv with
        | str s =>
          cases qv with
          | str t => simp [isStrArg] at hbad
          | num n => rfl
          | other => rfl
        | num n => cases qv <;> rfl
        | other => cases qv <;> rfl
  · intro db q hdb hq
    rcases a with ⟨adb, aq, mr, tm, qx⟩
    simp only at hdb hq
    subst hdb
    subst hq
    simp only [handleRunQuery]
    exact executeQuery_trace_head submit poll elapsed statusResp fetchResp _

theorem c8_amended_witness :
    handleRunQuery (.ok (some "q1")) (fun _ => .ok runningGQE) (fun _ => 0)
        (.ok runningGQE) (.ok exampleFetch)
        (some ⟨some (.num 3), some (.str "select 1"), none, none, none⟩) =
      (.invalidParams "Missing or invalid required parameters: database (string) and query (string)", [])
    ∧ (handleRunQuery (.ok (some "q1")) (fun _ => .ok runningGQE) (fun i => (i : Int) * 100000)
        (.ok runningGQE) (.ok exampleFetch)
        (some ⟨some (.str "db"), some (.str "select 1"), none, none, none⟩)).2.head? =
      some (.startQueryExecution "select 1" "db") := by
  constructor
  · exact (c8_amended_validation (.ok (some "q1")) (fun _ => .ok runningGQE) (fun _ => 0)
      (.ok runningGQE) (.ok exampleFetch)
      ⟨some (.num 3), some (.str "select 1"), none, none, none⟩).2.1 (Or.inl rfl)
  · exact (c8_amended_validation (.ok (some "q1")) (fun _ => .ok runningGQE)
      (fun i => (i : Int) * 100000) (.ok runningGQE) (.ok exampleFetch)
      ⟨some (.str "db"), some (.str "select 1"), none, none, none⟩).2.2 "db" "select 1" rfl rfl

/-- C3 counterexample: with an unnamed first column, the columns sequence
does keep the empty-string placeholder, but the output record contains only
the entry for "b" — the cell "x" aligned with the unnamed column is dropped
from the record entirely (the `if (columns[index])` guard treats the empty
string as falsy), contradicting the claim that such a cell is still
represented. -/
theorem c3_counterexample :
    (getQueryResults (.ok (gqeWith "SUCCEEDED" none)) (.ok unnamedColFetch) "q" none).1 =
      .ok ⟨["", "b"], [[("b", some "y")]], "q", 0, 0⟩ := by decide

/-- Inserting under key k leaves membership of entries with a different key
unchanged. -/
theorem objInsert_mem_of_ne (obj : List (String × Option String)) (k c : String)
    (v w : Option String) (hck : c ≠ k) :
    (c, w) ∈ objInsert obj k v ↔ (c, w) ∈ obj := by
  unfold objInsert
  by_cases hany : obj.any (fun p => p.1 = k)
  · rw [if_pos hany]
    constructor
    · intro hmem
      rcases List.mem_map.mp hmem with ⟨p, hp, hfp⟩
      by_cases hpk : p.1 = k
      · rw [if_pos hpk] at hfp
        have hkc : k = c := congrArg Prod.fst hfp
        exact absurd hkc.symm hck
      · rw [if_neg hpk] at hfp
        rw [← hfp]
        exact hp
    · intro hmem
      refine List.mem_map.mpr ⟨(c, w), hmem, ?_⟩
      rw [if_neg hck]
  · rw [if_neg hany]
    rw [List.mem_append]
    constructor
    · rintro (hm | hm)
      · exact hm
      · simp at hm
        exact absurd hm.1 hck
    · exact Or.inl

/-- A fresh key is inserted by appending its entry. -/
theorem mem_objInsert_self (obj : List (String × Option String)) (k : String)
    (v : Option String) (hk : obj.any (fun p => p.1 = k) = false) :
    (k, v) ∈ objInsert obj k v := by
  unfold objInsert
  rw [hk]
  simp

/-- Keys of an insertion come from the old object or are the inserted
key. -/
theorem objInsert_keys (obj : List (String × Option String)) (k : String)
    (v : Option String) (a : String) (ha : a ∈ recordKeys (objInsert obj k v)) :
    a ∈ recordKeys obj ∨ a = k := by
  unfold objInsert at ha
  by_cases hany : obj.any (fun p => p.1 = k)
  · rw [if_pos hany] at ha
    unfold recordKeys at ha
    rw [List.map_map] at ha
    rcases List.mem_map.mp ha with ⟨p, hp, hfp⟩
    by_cases hpk : p.1 = k
    · right
      rw [← hfp]
      simp [hpk]
    · left
      rw [← hfp]
      simp only [Function.comp_apply, if_neg hpk]
      exact List.mem_map_of_mem Prod.fst hp
  · rw [if_neg hany] at ha
    unfold recordKeys at ha
    rw [List.map_append, List.mem_append] at ha
    rcases ha with h | h
    · exact Or.inl h
    · right
      simpa using h

/-- Every key of a built record is a non-empty member of the columns
list (or was already in the accumulator). -/
theorem buildRecordAux_keys (columns : List String) :
    ∀ (ds : List DatumT) (i : Nat) (obj : List (String × Option String)) (a : String),
      a ∈ recordKeys (buildRecordAux columns ds i obj) →
      a ∈ recordKeys obj ∨ (a ∈ columns ∧ a ≠ "") := by
  intro ds
  induction ds with
  | nil => intro i obj a h; exact Or.inl h
  | cons d ds ih =>
    intro i obj a h
    rw [buildRecordAux] at h
    rcases hcol : columns.get? i with _ | c
    · rw [hcol] at h
      exact ih (i + 1) obj a h
    · rw [hcol] at h
      dsimp only at h
      by_cases hc : c = ""
      · rw [if_pos hc] at h
        exact ih _ _ _ h
      · rw [if_neg hc] at h
        rcases ih _ _ _ h with hin | hfin
        · rcases objInsert_keys obj c _ a hin with h1 | h2
          · exact Or.inl h1
          · subst h2
            exact Or.inr ⟨List.get?_mem hcol, hc⟩
        · exact Or.inr hfin

/-- An entry already in the accumulator survives the walk as long as its
key is never assigned at a later column index. -/
theorem buildRecordAux_preserve (columns : List String) :
    ∀ (ds : List DatumT) (i : Nat) (obj : List (String × Option String))
      (c : String) (v : Option String),
      (c, v) ∈ obj → (∀ j, i ≤ j → columns.get? j ≠ some c) →
      (c, v) ∈ buildRecordAux columns ds i obj := by
  intro ds
  induction ds with
  | nil => intro i obj c v hm _; exact hm
  | cons d ds ih =>
    intro i obj c v hm hfresh
    rw [buildRecordAux]
    rcases hcol : columns.get? i with _ | c0
    · exact ih (i + 1) obj c v hm (fun j hj => hfresh j (Nat.le_of_succ_le hj))
    · dsimp only
      by_cases hc0 : c0 = ""
      · rw [if_pos hc0]
        exact ih (i + 1) obj c v hm (fun j hj => hfresh j (Nat.le_of_succ_le hj))
      · rw [if_neg hc0]
        have hcc0 : c ≠ c0 := by
          intro hcc
          exact hfresh i (Nat.le_refl i) (hcc ▸ hcol)
        refine ih (i + 1) _ c v ?_ (fun j hj => hfresh j (Nat.le_of_succ_le hj))
        exact (objInsert_mem_of_ne obj c0 c d.varCharValue v hcc0).mpr hm

/-- In a columns list whose non-empty names are pairwise distinct, a
non-empty name determines its index. -/
theorem pairwise_cols_index_unique (columns : List String)
    (hnd : List.Pairwise (fun a b => a = "" ∨ b = "" ∨ a ≠ b) columns)
    (c : String) (hc : c ≠ "") (j k : Nat)
    (hj : columns.get? j = some c) (hk : columns.get? k = some c) : j = k := by
  rcases List.get?_eq_some.mp hj with ⟨hjl, hjg⟩
  rcases List.get?_eq_some.mp hk with ⟨hkl, hkg⟩
  by_contra hne
  rcases Nat.lt_or_ge j k with hlt | hge
  · have hr := List.pairwise_iff_get.mp hnd ⟨j, hjl⟩ ⟨k, hkl⟩ hlt
    rw [hjg, hkg] at hr
    rcases hr with h | h | h
    exacts [hc h, hc h, h rfl]
  · have hlt : k < j := Nat.lt_of_le_of_ne hge (fun hh => hne hh.symm)
    have hr := List.pairwise_iff_get.mp hnd ⟨k, hkl⟩ ⟨j, hjl⟩ hlt
    rw [hjg, hkg] at hr
    rcases hr with h | h | h
    exacts [hc h, hc h, h rfl]

/-- Core decoding property: when the non-empty column names are pairwise
distinct and the accumulator's keys are non-empty names of columns at
earlier indices only, the cell at data index jd ends up in the record under
the column name at the same index, provided that name is non-empty. -/
theorem buildRecordAux_mem (columns : List String)
    (hnd : List.Pairwise (fun a b => a = "" ∨ b = "" ∨ a ≠ b) columns) :
    ∀ (ds : List DatumT) (i : Nat) (obj : List (String × Option String)),
      (∀ a ∈ recordKeys obj, a ≠ "" ∧ ∀ j, columns.get? j = some a → j < i) →
      ∀ (jd : Nat) (c : String) (d : DatumT),
        ds.get? jd = some d → columns.get? (i + jd) = some c → c ≠ "" →
        (c, d.varCharValue) ∈ buildRecordAux columns ds i obj := by
  intro ds
  induction ds with
  | nil =>
    intro i obj _ jd c d hjd
    simp at hjd
  | cons d0 ds ih =>
    intro i obj hobj jd c d hjd hcol hc
    rw [buildRecordAux]
    cases jd with
    | zero =>
      have hd : d0 = d := by simpa using hjd
      subst hd
      rw [Nat.add_zero] at hcol
      rw [hcol]
      dsimp only
      rw [if_neg hc]
      have hfreshk : obj.any (fun p => p.1 = c) = false := by
        rw [List.any_eq_false]
        intro p hp
        simp only [decide_eq_true_eq]
        intro hpc
        have hmemkeys : c ∈ recordKeys obj := hpc ▸ List.mem_map_of_mem Prod.fst hp
        rcases hobj c hmemkeys with ⟨_, hlt⟩
        exact absurd (hlt i hcol) (Nat.lt_irrefl i)
      refine buildRecordAux_preserve columns ds (i + 1) _ c d0.varCharValue
        (mem_objInsert_self obj c d0.varCharValue hfreshk) ?_
      intro j hj hgetj
      have hji : i = j := pairwise_cols_index_unique columns hnd c hc i j hcol hgetj
      omega
    | succ jd =>
      have hjd2 : ds.get? jd = some d := hjd
      have hcol2 : columns.get? (i + 1 + jd) = some c := by
        rw [← hcol]
        congr 1
        omega
      rcases hcolI : columns.get? i with _ | c0
      · refine ih (i + 1) obj ?_ jd c d hjd2 hcol2 hc
        intro a ha
        rcases hobj a ha with ⟨hne, hlt⟩
        exact ⟨hne, fun j hg => Nat.lt_succ_of_lt (hlt j hg)⟩
      · dsimp only
        by_cases hc0 : c0 = ""
        · rw [if_pos hc0]
          refine ih (i + 1) obj ?_ jd c d hjd2 hcol2 hc
          intro a ha
          rcases hobj a ha with ⟨hne, hlt⟩
          exact ⟨hne, fun j hg => Nat.lt_succ_of_lt (hlt j hg)⟩
        · rw [if_neg hc0]
          refine ih (i + 1) (objInsert obj c0 d0.varCharValue) ?_ jd c d hjd2 hcol2 hc
          intro a ha
          rcases objInsert_keys obj c0 d0.varCharValue a ha with h1 | h2
          · rcases hobj a h1 with ⟨hne, hlt⟩
            exact ⟨hne, fun j hg => Nat.lt_succ_of_lt (hlt j hg)⟩
          · subst h2
            refine ⟨hc0, fun j hg => ?_⟩
            have hji : i = j := pairwise_cols_index_unique columns hnd a hc0 i j hcolI hg
            omega

/-- C3 as amended: the columns sequence contains one entry per backend
column descriptor, in order, with an unnamed column represented as the
empty string and never dropped (preserving positional alignment of the
named columns); every key of an output record is a non-empty member of the
columns list — so a cell aligned with an unnamed column is omitted from
the record — and, when the non-empty column names are pairwise distinct,
each record maps each non-empty column name to that row's cell value at
the same position. -/
theorem c3_amended_decoding
    (infos : List ColumnInfoT) (columns : List String) (row : RowT)
    (hnd : List.Pairwise (fun a b => a = "" ∨ b = "" ∨ a ≠ b) columns) :
    ((colNames infos).length = infos.length
      ∧ ∀ i : Nat, (colNames infos).get? i = (infos.get? i).map (fun c => jsOrStr c.name ""))
    ∧ (∀ p ∈ buildRecord columns row, p.1 ∈ columns ∧ p.1 ≠ "")
    ∧ (∀ (i : Nat) (c : String) (d : DatumT),
        columns.get? i = some c → c ≠ "" → (row.data.getD []).get? i = some d →
        (c, d.varCharValue) ∈ buildRecord columns row) := by
  refine ⟨⟨List.length_map infos _, fun i => List.get?_map _ infos i⟩, ?_, ?_⟩
  · intro p hp
    have hkey : p.1 ∈ recordKeys (buildRecordAux columns (row.data.getD []) 0 []) :=
      List.mem_map_of_mem Prod.fst hp
    rcases buildRecordAux_keys columns (row.data.getD []) 0 [] p.1 hkey with h | h
    · simp [recordKeys] at h
    · exact h
  · intro i c d hcol hc hd
    have h0 : ∀ a ∈ recordKeys ([] : List (String × Option String)),
        a ≠ "" ∧ ∀ j, columns.get? j = some a → j < 0 := by
      intro a ha
      simp [recordKeys] at ha
    have h := buildRecordAux_mem columns hnd (row.data.getD []) 0 [] h0 i c d hd
      (by rw [Nat.zero_add]; exact hcol) hc
    exact h

theorem c3_amended_witness :
    (colNames [⟨none⟩, ⟨some "b"⟩]).length = 2
    ∧ (∀ p ∈ buildRecord ["", "b"] ⟨some [⟨some "x"⟩, ⟨some "y"⟩]⟩,
        p.1 ∈ ["", "b"] ∧ p.1 ≠ "")
    ∧ ("b", some "y") ∈ buildRecord ["", "b"] ⟨some [⟨some "x"⟩, ⟨some "y"⟩]⟩ := by
  have h := c3_amended_decoding [⟨none⟩, ⟨some "b"⟩] ["", "b"]
    ⟨some [⟨some "x"⟩, ⟨some "y"⟩]⟩ (by decide)
  exact ⟨h.1.1, h.2.1, h.2.2 1 "b" ⟨some "y"⟩ rfl (by decide) rfl⟩

end AthenaMCP
